import Mathlib

/-!
Verification of the per-channel signal pipeline of
src/Omniconsole/midi2grandma/midi2grandma.ino: circular-buffer moving
average, endpoint snapping, linear range mapping, deadzone-gated change
detection, rate-limited emission of MIDI Control Change packets.

The sketch is embedded shallowly: C ints and longs become Int (with the
C truncating division written Int.tdiv), bytes become Nat values reduced
mod 256 at every narrowing conversion, the unsigned-long subtraction in
the rate-limit test is carried out mod 2 ^ 32, and the two external
collaborators are black boxes: analogRead samples are parameters of each
tick, and the MidiUSB send-then-flush pair is modelled by the event
packet a tick hands to it, returned as an Option.
-/

namespace Midi2Grandma

/-- CONFIG block of the sketch: number of readings in the average. -/
def AVG_SIZE : Nat := 5

/-- CONFIG block of the sketch: deadzone on the MIDI output value. -/
def DEADZONE : Int := 3

/-- CONFIG block of the sketch: raw endzone width forcing 0 or 127. -/
def RAW_ENDZONE : Int := 20

/-- CONFIG block of the sketch: minimal milliseconds between two sends. -/
def SEND_INTERVAL : Nat := 15

/-- CONFIG block of the sketch: controller number of the first fader. -/
def MIDI_CC1 : Nat := 7

/-- CONFIG block of the sketch: controller number of the second fader. -/
def MIDI_CC2 : Nat := 8

/-- CONFIG block of the sketch: 1-based MIDI channel number. -/
def MIDI_CHANNEL : Nat := 1

/-- Number of faders handled by the loop. -/
def FADER_COUNT : Nat := 2

/-- Configured controller number per fader, the midiCC array. -/
def midiCC : List Nat := [MIDI_CC1, MIDI_CC2]

/-- Arduino core helper called by the sketch as map(avgRaw, 0, 1023, 0, 127):
(x - in_min) * (out_max - out_min) / (in_max - in_min) + out_min computed
on C long values, whose division truncates toward zero. -/
def map (x in_min in_max out_min out_max : Int) : Int :=
  Int.tdiv ((x - in_min) * (out_max - out_min)) (in_max - in_min) + out_min

/-- Arduino core helper called by the sketch as constrain(midiValue, 0, 127):
amt clamped into the closed interval from low to high. -/
def constrain (amt low high : Int) : Int :=
  if amt < low then low else if high < amt then high else amt

/-- Narrowing conversion of a C int to a byte (uint8_t): reduction mod 256,
with the mathematical remainder in 0..255. -/
def toByte (v : Int) : Nat := (v % 256).toNat

/-- Unsigned 32-bit subtraction a - b, as computed by now - lastSendTime[f]
on unsigned long values. -/
def usub32 (a b : Nat) : Nat := (a + 2 ^ 32 - b % 2 ^ 32) % 2 ^ 32

/-- USB-MIDI event packet handed to MidiUSB.sendMIDI, the struct
midiEventPacket_t with its four byte fields. -/
structure midiEventPacket_t where
  header : Nat
  byte1 : Nat
  byte2 : Nat
  byte3 : Nat
deriving DecidableEq

/-- sendCC of the sketch: it builds the packet with header 0x0B (USB-MIDI
Control Change group code), status byte 0xB0 bitwise-or (channel - 1)
narrowed to a byte, then controller number and value, hands it to
MidiUSB.sendMIDI and calls MidiUSB.flush. The transport is a black box,
so the packet it is handed is what this function returns; the parameters
are already bytes at this point. -/
def sendCC (control value channel : Nat) : midiEventPacket_t :=
  ⟨0x0B, toByte (Int.lor 0xB0 ((channel : Int) - 1)), control, value⟩

/-- Per-fader state of the sketch: one row of the readings matrix, the
matching entries of readIndex, total, lastMidiValue and lastSendTime. -/
structure ChannelState where
  readings : List Int
  readIndex : Nat
  total : Int
  lastMidiValue : Int
  lastSendTime : Nat
deriving DecidableEq

/-- Moving-average update of one tick, in the order of the sketch: the
oldest slot is subtracted from the running total, overwritten by the new
sample, the new sample is added to the total, and the cursor advances by
one modulo AVG_SIZE. The emission fields are untouched here. -/
def advance (s : ChannelState) (sample : Int) : ChannelState :=
  ⟨s.readings.set s.readIndex sample,
   (s.readIndex + 1) % AVG_SIZE,
   s.total - s.readings.getD s.readIndex 0 + sample,
   s.lastMidiValue,
   s.lastSendTime⟩

/-- Average computed from the running total: total / AVG_SIZE with the C
truncating integer division. -/
def avgOf (s : ChannelState) : Int := Int.tdiv s.total (AVG_SIZE : Int)

/-- MIDI conversion of the sketch: snap to 0 when the average is at most
RAW_ENDZONE, snap to 127 when it is at least 1023 - RAW_ENDZONE, and
otherwise map it proportionally from 0..1023 to 0..127 and clamp. -/
def convertMidi (avgRaw : Int) : Int :=
  if avgRaw ≤ RAW_ENDZONE then 0
  else if 1023 - RAW_ENDZONE ≤ avgRaw then 127
  else constrain (map avgRaw 0 1023 0 127) 0 127

/-- Average produced by a tick that feeds the given sample into the given
state, read off the updated running total. -/
def tickAvg (s : ChannelState) (sample : Int) : Int := avgOf (advance s sample)

/-- MIDI output value computed by a tick for the given state and sample. -/
def tickMidiValue (s : ChannelState) (sample : Int) : Int :=
  convertMidi (tickAvg s sample)

/-- One per-fader iteration of loop: buffer update, average, conversion to
MIDI, then emission gated by the deadzone test on the output value and
the rate-limit test on the unsigned time difference. On emission the new
value and time are recorded; the int output value is narrowed to a byte
at the sendCC call. The result pairs the new state with the packet sent,
if any. -/
def tick (s : ChannelState) (sample : Int) (now : Nat) (cc : Nat) :
    ChannelState × Option midiEventPacket_t :=
  if DEADZONE ≤ |tickMidiValue s sample - s.lastMidiValue| ∧
      SEND_INTERVAL ≤ usub32 now s.lastSendTime then
    (⟨(advance s sample).readings, (advance s sample).readIndex,
      (advance s sample).total, tickMidiValue s sample, now⟩,
     some (sendCC (cc % 256) (toByte (tickMidiValue s sample)) MIDI_CHANNEL))
  else (advance s sample, none)

/-- Per-fader effect of setup: the buffer is filled with one sample per
slot and each stored sample is added to the total, which starts at 0;
the cursor starts at 0, lastMidiValue at the sentinel -1 and
lastSendTime at 0, as in the global initializers of the sketch. -/
def initChannel (r0 r1 r2 r3 r4 : Int) : ChannelState :=
  ⟨[r0, r1, r2, r3, r4], 0, 0 + r0 + r1 + r2 + r3 + r4, -1, 0⟩

/-- State well-formedness: the buffer holds exactly AVG_SIZE samples, the
cursor is in range, and the running total equals the sum of the buffer. -/
def Inv (s : ChannelState) : Prop :=
  s.readings.length = AVG_SIZE ∧ s.readIndex < AVG_SIZE ∧
    s.total = s.readings.sum

instance (s : ChannelState) : Decidable (Inv s) :=
  inferInstanceAs (Decidable (s.readings.length = AVG_SIZE ∧
    s.readIndex < AVG_SIZE ∧ s.total = s.readings.sum))

/-- Iterated ticks with a constant input sample: runConst s v times cc n is
the state after n ticks that all read the sample v, the k-th tick seeing
millis value times k. -/
def runConst (s : ChannelState) (v : Int) (times : Nat → Nat) (cc : Nat) :
    Nat → ChannelState
  | 0 => s
  | n + 1 => (tick (runConst s v times cc n) v (times n) cc).1

/-- A list of five integers is literally a five-element list. -/
theorem length_five (l : List Int) (h : l.length = 5) :
    ∃ a b c d e, l = [a, b, c, d, e] := by
  rcases l with - | ⟨a, - | ⟨b, - | ⟨c, - | ⟨d, - | ⟨e, - | ⟨f, t⟩⟩⟩⟩⟩⟩ <;>
      simp only [List.length] at h <;> first | omega | exact ⟨a, b, c, d, e, rfl⟩

/-- Setting a slot of an integer list adjusts the sum by the difference
between the new sample and the old slot content. -/
theorem sum_set (l : List Int) (i : Nat) (v : Int) (h : i < l.length) :
    (l.set i v).sum = l.sum - l.getD i 0 + v := by
  induction l generalizing i with
  | nil => simp at h
  | cons a t ih =>
    cases i with
    | zero => simp [List.set]; ring
    | succ n =>
      simp only [List.set, List.sum_cons, List.getD_cons_succ]
      rw [ih n (by simpa using h)]
      ring

/-- The converted MIDI value is never negative in any of the branches. -/
theorem convertMidi_nonneg (a : Int) : 0 ≤ convertMidi a := by
  unfold convertMidi constrain
  split_ifs <;> omega

/-- The converted MIDI value never exceeds 127 in any of the branches. -/
theorem convertMidi_le (a : Int) : convertMidi a ≤ 127 := by
  unfold convertMidi constrain
  split_ifs <;> omega

/-- With the arguments the sketch passes, the Arduino map helper is the
truncating division of 127 times the average by 1023. -/
theorem map_eq (a : Int) : map a 0 1023 0 127 = Int.tdiv (a * 127) 1023 := by
  unfold map
  norm_num

/-- Between the two endzones the conversion is the mapped value clamped
into 0..127. -/
theorem convertMidi_mid (a : Int) (h1 : 20 < a) (h2 : a < 1003) :
    convertMidi a = constrain (Int.tdiv (a * 127) 1023) 0 127 := by
  unfold convertMidi RAW_ENDZONE
  rw [if_neg (by omega), if_neg (by omega), map_eq]

/-- The truncating division by 1023 after scaling by 127 is monotone on
nonnegative inputs. -/
theorem tdiv_1023_mono (a b : Int) (h0 : 0 ≤ a) (h : a ≤ b) :
    Int.tdiv (a * 127) 1023 ≤ Int.tdiv (b * 127) 1023 := by
  rw [Int.tdiv_eq_ediv (by positivity) (by norm_num),
    Int.tdiv_eq_ediv (by nlinarith) (by norm_num)]
  exact Int.ediv_le_ediv (by norm_num) (by nlinarith)

/-- Clamping into a sane interval preserves order. -/
theorem constrain_mono (x y low high : Int) (hlh : low ≤ high) (h : x ≤ y) :
    constrain x low high ≤ constrain y low high := by
  unfold constrain
  split_ifs <;> omega

/-- Between the endzones the mapped value already sits inside 0..127. -/
theorem mid_bounds (a : Int) (h1 : 20 < a) (h2 : a < 1003) :
    0 ≤ Int.tdiv (a * 127) 1023 ∧ Int.tdiv (a * 127) 1023 ≤ 127 := by
  rw [Int.tdiv_eq_ediv (by nlinarith) (by norm_num)]
  refine ⟨Int.ediv_nonneg (by nlinarith) (by norm_num), ?_⟩
  have hlt : a * 127 / 1023 < 128 :=
    Int.ediv_lt_of_lt_mul (by norm_num) (by nlinarith)
  omega

/-- A byte-range int survives the narrowing conversion unchanged. -/
theorem toByte_eq (m : Int) (h0 : 0 ≤ m) (h1 : m ≤ 255) :
    (toByte m : Int) = m := by
  unfold toByte
  rw [Int.emod_eq_of_lt h0 (by omega)]
  exact Int.toNat_of_nonneg h0

/-- The narrowing of a byte-range int is its absolute numeral. -/
theorem toByte_eq_toNat (m : Int) (h0 : 0 ≤ m) (h1 : m ≤ 255) :
    toByte m = m.toNat := by
  unfold toByte
  rw [Int.emod_eq_of_lt h0 (by omega)]

/-- The buffer, cursor and total of the state a tick returns are those of
the moving-average update, whether or not an emission happened. -/
theorem tick_fst_buffer (s : ChannelState) (v : Int) (now cc : Nat) :
    (tick s v now cc).1.readings = (advance s v).readings ∧
      (tick s v now cc).1.readIndex = (advance s v).readIndex ∧
      (tick s v now cc).1.total = (advance s v).total := by
  unfold tick
  split <;> exact ⟨rfl, rfl, rfl⟩

/-- The buffer a tick returns is the old buffer with the cursor slot
overwritten by the new sample. -/
theorem tick_readings (s : ChannelState) (v : Int) (now cc : Nat) :
    (tick s v now cc).1.readings = s.readings.set s.readIndex v :=
  (tick_fst_buffer s v now cc).1

/-- The cursor a tick returns advanced by one modulo AVG_SIZE. -/
theorem tick_readIndex (s : ChannelState) (v : Int) (now cc : Nat) :
    (tick s v now cc).1.readIndex = (s.readIndex + 1) % AVG_SIZE :=
  (tick_fst_buffer s v now cc).2.1

/-- The moving-average update preserves well-formedness. -/
theorem inv_advance (s : ChannelState) (v : Int) (h : Inv s) :
    Inv (advance s v) := by
  obtain ⟨hl, hi, ht⟩ := h
  refine ⟨?_, ?_, ?_⟩
  · simpa [advance] using hl
  · exact Nat.mod_lt _ (by decide)
  · show s.total - s.readings.getD s.readIndex 0 + v = (s.readings.set s.readIndex v).sum
    rw [sum_set s.readings s.readIndex v (by omega), ht]

/-- Setup establishes well-formedness for every run of initial samples. -/
theorem inv_init (r0 r1 r2 r3 r4 : Int) : Inv (initChannel r0 r1 r2 r3 r4) := by
  refine ⟨rfl, ?_, ?_⟩
  · show 0 < AVG_SIZE
    decide
  · show 0 + r0 + r1 + r2 + r3 + r4 = ([r0, r1, r2, r3, r4] : List Int).sum
    simp
    ring

/-- A full tick preserves well-formedness: the emission fields play no
role in the buffer invariant. -/
theorem inv_tick (s : ChannelState) (v : Int) (now cc : Nat) (h : Inv s) :
    Inv ((tick s v now cc).1) := by
  obtain ⟨h1, h2, h3⟩ := tick_fst_buffer s v now cc
  have ha := inv_advance s v h
  exact ⟨h1 ▸ ha.1, h2 ▸ ha.2.1, by rw [h3, h1]; exact ha.2.2⟩

/-- Claim C3: on every tick, an average at most the endzone threshold 20
yields output 0, and an average at least 1023 - 20 = 1003 yields output
127, over the whole qualifying ranges. -/
theorem endzone_snapping (a : Int) :
    (a ≤ 20 → convertMidi a = 0) ∧ (1003 ≤ a → convertMidi a = 127) := by
  unfold convertMidi RAW_ENDZONE
  constructor
  · intro h
    rw [if_pos h]
  · intro h
    rw [if_neg (by omega), if_pos (by omega)]

/-- Witness for C3 at concrete averages 10 and 1010. -/
theorem endzone_snapping_witness :
    convertMidi 10 = 0 ∧ convertMidi 1010 = 127 :=
  ⟨(endzone_snapping 10).1 (by decide), (endzone_snapping 1010).2 (by decide)⟩

/-- Claim C4: when the output value is closer than the deadzone threshold
to the last emitted value, the tick emits nothing, whatever the elapsed
time. -/
theorem deadzone_suppression (s : ChannelState) (v : Int) (now cc : Nat)
    (h : |tickMidiValue s v - s.lastMidiValue| < DEADZONE) :
    (tick s v now cc).2 = none := by
  unfold tick
  rw [if_neg (by rintro ⟨h1, -⟩; exact absurd h1 (not_le.mpr h))]

/-- Witness for C4: a steady fader at raw 100, output 12 already emitted,
long after the last send. -/
theorem deadzone_suppression_witness :
    |tickMidiValue ⟨[100, 100, 100, 100, 100], 0, 500, 12, 0⟩ 100 - 12| <
        DEADZONE ∧
      (tick ⟨[100, 100, 100, 100, 100], 0, 500, 12, 0⟩ 100 100 7).2 = none :=
  ⟨by decide, deadzone_suppression ⟨[100, 100, 100, 100, 100], 0, 500, 12, 0⟩
    100 100 7 (by decide)⟩

/-- Claim C5: when less than the minimum send interval has elapsed since
the last emission, the tick emits nothing, whatever the output delta. -/
theorem rate_limiting (s : ChannelState) (v : Int) (now cc : Nat)
    (h : usub32 now s.lastSendTime < SEND_INTERVAL) :
    (tick s v now cc).2 = none := by
  unfold tick
  rw [if_neg (by rintro ⟨-, h2⟩; exact absurd h2 (not_le.mpr h))]

/-- Witness for C5: a jump from the sentinel to output 74 only 5 ms after
start is still suppressed. -/
theorem rate_limiting_witness :
    usub32 5 (0 : Nat) < SEND_INTERVAL ∧
      (tick ⟨[0, 0, 0, 0, 0], 0, 0, -1, 0⟩ 600 5 7).2 = none :=
  ⟨by decide, rate_limiting ⟨[0, 0, 0, 0, 0], 0, 0, -1, 0⟩ 600 5 7 (by decide)⟩

/-- Claim C6: between the two endzone boundaries the conversion is
non-decreasing in the average, integer rounding and clamp included. -/
theorem monotone_mapping (a1 a2 : Int) (h0 : 20 < a1) (h12 : a1 < a2)
    (h2 : a2 < 1003) : convertMidi a1 ≤ convertMidi a2 := by
  rw [convertMidi_mid a1 h0 (by omega), convertMidi_mid a2 (by omega) h2]
  exact constrain_mono _ _ _ _ (by norm_num)
    (tdiv_1023_mono a1 a2 (by omega) (by omega))

/-- Witness for C6 at averages 100 and 500. -/
theorem monotone_mapping_witness :
    (20 : Int) < 100 ∧ (100 : Int) < 500 ∧ (500 : Int) < 1003 ∧
      convertMidi 100 ≤ convertMidi 500 :=
  ⟨by decide, by decide, by decide,
    monotone_mapping 100 500 (by decide) (by decide) (by decide)⟩

/-- Claim C10: on the whole configured raw range the converted value sits
inside 0..127; in the proportional branch the raw mapped value is
already in range, so the clamp returns it unchanged, and the narrowing
of the output value to a byte in the sendCC call never wraps. -/
theorem output_in_range (a : Int) (_hlo : 0 ≤ a) (_hhi : a ≤ 1023) :
    (0 ≤ convertMidi a ∧ convertMidi a ≤ 127) ∧
      (20 < a → a < 1003 → convertMidi a = map a 0 1023 0 127) ∧
      (toByte (convertMidi a) : Int) = convertMidi a := by
  refine ⟨⟨convertMidi_nonneg a, convertMidi_le a⟩, ?_, ?_⟩
  · intro h1 h2
    obtain ⟨hm0, hm1⟩ := mid_bounds a h1 h2
    rw [convertMidi_mid a h1 h2, map_eq]
    unfold constrain
    rw [if_neg (by omega), if_neg (by omega)]
  · exact toByte_eq _ (convertMidi_nonneg a) (le_trans (convertMidi_le a)
      (by norm_num))

/-- Witness for C10 at average 500, whose mapped value is 62. -/
theorem output_in_range_witness :
    (0 : Int) ≤ 500 ∧ (500 : Int) ≤ 1023 ∧
      ((0 ≤ convertMidi 500 ∧ convertMidi 500 ≤ 127) ∧
        ((20 : Int) < 500 → (500 : Int) < 1003 →
          convertMidi 500 = map 500 0 1023 0 127) ∧
        (toByte (convertMidi 500) : Int) = convertMidi 500) :=
  ⟨by decide, by decide, output_in_range 500 (by decide) (by decide)⟩

/-- Claim C8: when the gating conjunction fails, the tick emits nothing
and returns exactly the moving-average update of the state: the buffer,
cursor and total change as in step 2, while lastMidiValue and
lastSendTime keep their old values. -/
theorem frame_on_suppression (s : ChannelState) (v : Int) (now cc : Nat)
    (h : ¬(DEADZONE ≤ |tickMidiValue s v - s.lastMidiValue| ∧
      SEND_INTERVAL ≤ usub32 now s.lastSendTime)) :
    (tick s v now cc).2 = none ∧ (tick s v now cc).1 = advance s v ∧
      (tick s v now cc).1.lastMidiValue = s.lastMidiValue ∧
      (tick s v now cc).1.lastSendTime = s.lastSendTime := by
  unfold tick
  rw [if_neg h]
  exact ⟨rfl, rfl, rfl, rfl⟩

/-- Witness for C8: 5 ms after start the rate limit blocks the emission
and the tick is just the buffer update. -/
theorem frame_on_suppression_witness :
    ¬(DEADZONE ≤
        |tickMidiValue ⟨[7, 7, 7, 7, 7], 2, 35, -1, 0⟩ 7 -
          (⟨[7, 7, 7, 7, 7], 2, 35, -1, 0⟩ : ChannelState).lastMidiValue| ∧
      SEND_INTERVAL ≤
        usub32 5 (⟨[7, 7, 7, 7, 7], 2, 35, -1, 0⟩ : ChannelState).lastSendTime) ∧
      (tick ⟨[7, 7, 7, 7, 7], 2, 35, -1, 0⟩ 7 5 8).2 = none ∧
      (tick ⟨[7, 7, 7, 7, 7], 2, 35, -1, 0⟩ 7 5 8).1 =
        advance ⟨[7, 7, 7, 7, 7], 2, 35, -1, 0⟩ 7 ∧
      (tick ⟨[7, 7, 7, 7, 7], 2, 35, -1, 0⟩ 7 5 8).1.lastMidiValue =
        (⟨[7, 7, 7, 7, 7], 2, 35, -1, 0⟩ : ChannelState).lastMidiValue ∧
      (tick ⟨[7, 7, 7, 7, 7], 2, 35, -1, 0⟩ 7 5 8).1.lastSendTime =
        (⟨[7, 7, 7, 7, 7], 2, 35, -1, 0⟩ : ChannelState).lastSendTime :=
  ⟨by decide, frame_on_suppression ⟨[7, 7, 7, 7, 7], 2, 35, -1, 0⟩ 7 5 8
    (by decide)⟩

/-- Claim C2: the running-total invariant. Setup leaves every channel with
a full buffer of AVG_SIZE samples, an in-range cursor and a total equal
to the exact sum of the buffer, and every tick, with its
subtract-oldest, overwrite, add-new update, preserves all three. -/
theorem buffer_sum_invariant :
    (∀ r0 r1 r2 r3 r4, Inv (initChannel r0 r1 r2 r3 r4)) ∧
      ∀ s v now cc, Inv s → Inv ((tick s v now cc).1) :=
  ⟨inv_init, inv_tick⟩

/-- Witness for C2 on a concrete initial fill and one concrete tick. -/
theorem buffer_sum_invariant_witness :
    Inv (initChannel 3 14 15 92 65) ∧
      Inv ((tick (initChannel 3 14 15 92 65) 35 20 7).1) :=
  ⟨buffer_sum_invariant.1 3 14 15 92 65,
    buffer_sum_invariant.2 (initChannel 3 14 15 92 65) 35 20 7
      (buffer_sum_invariant.1 3 14 15 92 65)⟩

/-- Claim C7: every packet a tick emits carries the USB-MIDI Control
Change group code 0x0B in its header, the status byte 0xB0 bitwise-or
the 1-based channel number minus one, the configured controller number
as first data byte and the computed output value as second data byte. -/
theorem packet_shape (s : ChannelState) (v : Int) (now cc : Nat)
    (s' : ChannelState) (e : midiEventPacket_t) (hcc : cc ∈ midiCC)
    (h : tick s v now cc = (s', some e)) :
    e.header = 0x0B ∧
      e.byte1 = toByte (Int.lor 0xB0 ((MIDI_CHANNEL : Int) - 1)) ∧
      e.byte1 = 0xB0 ∧ e.byte2 = cc ∧ (e.byte3 : Int) = tickMidiValue s v := by
  have hcc' : cc = MIDI_CC1 ∨ cc = MIDI_CC2 := by
    simpa [midiCC] using hcc
  unfold tick at h
  split at h
  · obtain ⟨-, he⟩ := Prod.mk.injEq .. ▸ h
    obtain rfl : sendCC (cc % 256) (toByte (tickMidiValue s v)) MIDI_CHANNEL = e :=
      Option.some.injEq .. ▸ he
    refine ⟨rfl, rfl, ?_, ?_, ?_⟩
    · show toByte (Int.lor 0xB0 ((MIDI_CHANNEL : Int) - 1)) = 0xB0
      decide
    · show cc % 256 = cc
      rcases hcc' with rfl | rfl <;> decide
    · show ((toByte (tickMidiValue s v) : Nat) : Int) = tickMidiValue s v
      exact toByte_eq _ (convertMidi_nonneg _)
        (le_trans (convertMidi_le _) (by norm_num))
  · exact absurd (Prod.mk.injEq .. ▸ h).2 (by simp)

/-- Witness for C7: the first concrete emission of a channel that starts
at zero and reads raw 600, yielding the packet 0x0B, 0xB0, 7, 14. -/
theorem packet_shape_witness :
    (7 : Nat) ∈ midiCC ∧
      tick (initChannel 0 0 0 0 0) 600 15 7 =
        (⟨[600, 0, 0, 0, 0], 1, 600, 14, 15⟩, some ⟨11, 176, 7, 14⟩) ∧
      ((⟨11, 176, 7, 14⟩ : midiEventPacket_t).header = 0x0B ∧
        (⟨11, 176, 7, 14⟩ : midiEventPacket_t).byte1 =
          toByte (Int.lor 0xB0 ((MIDI_CHANNEL : Int) - 1)) ∧
        (⟨11, 176, 7, 14⟩ : midiEventPacket_t).byte1 = 0xB0 ∧
        (⟨11, 176, 7, 14⟩ : midiEventPacket_t).byte2 = 7 ∧
        ((⟨11, 176, 7, 14⟩ : midiEventPacket_t).byte3 : Int) =
          tickMidiValue (initChannel 0 0 0 0 0) 600) :=
  ⟨by decide, by decide,
    packet_shape (initChannel 0 0 0 0 0) 600 15 7
      ⟨[600, 0, 0, 0, 0], 1, 600, 14, 15⟩ ⟨11, 176, 7, 14⟩ (by decide)
      (by decide)⟩

/-- Claim C1 counterexample: a channel whose buffer and sample are all
zero still has the sentinel -1 recorded, the full send interval has
elapsed, the computed output is 0, and yet the tick emits nothing: the
deadzone comparison is not treated as satisfied unconditionally while
the sentinel is in place, refuting emission regardless of the output
value. -/
theorem first_emission_counterexample :
    (initChannel 0 0 0 0 0).lastMidiValue = -1 ∧
      SEND_INTERVAL ≤ usub32 15 (initChannel 0 0 0 0 0).lastSendTime ∧
      tickMidiValue (initChannel 0 0 0 0 0) 0 = 0 ∧
      (tick (initChannel 0 0 0 0 0) 0 15 7).2 = none := by
  decide

/-- Claim C1 as amended: while lastMidiValue holds the sentinel -1 and
the rate limit is satisfied, the tick emits exactly when the computed
output value is at least DEADZONE - 1 = 2, because the deadzone test
compares the output against the sentinel itself: outputs 0 and 1 are
still suppressed on the first emission. -/
theorem first_emission_gate (s : ChannelState) (v : Int) (now cc : Nat)
    (hlast : s.lastMidiValue = -1)
    (hrate : SEND_INTERVAL ≤ usub32 now s.lastSendTime) :
    (tick s v now cc).2 ≠ none ↔ 2 ≤ tickMidiValue s v := by
  have hnn : 0 ≤ tickMidiValue s v := convertMidi_nonneg _
  have habs : |tickMidiValue s v - s.lastMidiValue| = tickMidiValue s v + 1 := by
    rw [hlast, sub_neg_eq_add, abs_of_nonneg (by omega)]
  unfold tick
  rw [habs]
  constructor
  · intro hne
    by_contra hlt
    push_neg at hlt
    rw [if_neg (by rintro ⟨hh, -⟩; revert hh; unfold DEADZONE; omega)] at hne
    exact hne rfl
  · intro h2
    rw [if_pos ⟨by unfold DEADZONE; omega, hrate⟩]
    simp

/-- Witness for the amended C1: from the all-zero start, a raw sample of
600 maps to output 14 and the first tick at 15 ms does emit. -/
theorem first_emission_gate_witness :
    (initChannel 0 0 0 0 0).lastMidiValue = -1 ∧
      SEND_INTERVAL ≤ usub32 15 (initChannel 0 0 0 0 0).lastSendTime ∧
      ((tick (initChannel 0 0 0 0 0) 600 15 7).2 ≠ none ↔
        2 ≤ tickMidiValue (initChannel 0 0 0 0 0) 600) :=
  ⟨by decide, by decide,
    first_emission_gate (initChannel 0 0 0 0 0) 600 15 7 (by decide) (by decide)⟩

/-- Unfolding lemma: zero iterated ticks leave the state alone. -/
theorem runConst_zero (s : ChannelState) (v : Int) (times : Nat → Nat)
    (cc : Nat) : runConst s v times cc 0 = s := rfl

/-- Unfolding lemma: one more iterated tick applies tick once more. -/
theorem runConst_succ (s : ChannelState) (v : Int) (times : Nat → Nat)
    (cc : Nat) (n : Nat) :
    runConst s v times cc (n + 1) =
      (tick (runConst s v times cc n) v (times n) cc).1 := rfl

/-- Five consecutive ticks with the same sample overwrite every slot of a
well-formed buffer: the wrapping cursor visits all AVG_SIZE slots. -/
theorem fill_five (s : ChannelState) (v : Int) (times : Nat → Nat) (cc : Nat)
    (h : Inv s) :
    (runConst s v times cc 5).readings = List.replicate 5 v := by
  obtain ⟨hl, hi, -⟩ := h
  obtain ⟨a, b, c, d, e, hr⟩ := length_five s.readings hl
  have hi5 : s.readIndex < 5 := hi
  show (runConst s v times cc (0 + 1 + 1 + 1 + 1 + 1)).readings =
    List.replicate 5 v
  simp only [runConst_succ, runConst_zero, tick_readings, tick_readIndex, hr]
  generalize hg : s.readIndex = i
  rw [hg] at hi5
  interval_cases i <;> rfl

/-- Once the buffer is constant at the sample value, a tick with that
sample keeps it constant. -/
theorem replicate_stable (s : ChannelState) (v : Int) (now cc : Nat)
    (hi : s.readIndex < AVG_SIZE) (hr : s.readings = List.replicate 5 v) :
    (tick s v now cc).1.readings = List.replicate 5 v := by
  rw [tick_readings, hr]
  have hi5 : s.readIndex < 5 := hi
  generalize hg : s.readIndex = i
  rw [hg] at hi5
  interval_cases i <;> rfl

/-- Claim C9: whatever a well-formed channel held before, after at least
N = 5 consecutive ticks reading the same sample v the running total is
exactly 5 v, so the computed average, the truncating division of the
total by N, is exactly v. -/
theorem const_input_average (s : ChannelState) (v : Int) (times : Nat → Nat)
    (cc : Nat) (n : Nat) (hInv : Inv s) (hn : 5 ≤ n) :
    avgOf (runConst s v times cc n) = v := by
  have hrun : ∀ m, Inv (runConst s v times cc m) := by
    intro m
    induction m with
    | zero => exact hInv
    | succ k ih => exact inv_tick _ _ _ _ ih
  have hrep : ∀ m, 5 ≤ m →
      (runConst s v times cc m).readings = List.replicate 5 v := by
    intro m hm
    induction m with
    | zero => omega
    | succ k ih =>
      rcases Nat.lt_or_ge k 5 with hk | hk
      · have hk5 : k + 1 = 5 := by omega
        rw [hk5]
        exact fill_five s v times cc hInv
      · rw [runConst_succ]
        exact replicate_stable _ _ _ _ (hrun k).2.1 (ih hk)
  have hsum : (List.replicate 5 v).sum = 5 * v := by
    show ([v, v, v, v, v] : List Int).sum = 5 * v
    simp
    ring
  have hcast : ((AVG_SIZE : Nat) : Int) = 5 := by
    norm_num [AVG_SIZE]
  unfold avgOf
  rw [hcast, (hrun n).2.2, hrep n hn, hsum]
  exact Int.mul_tdiv_cancel_left v (by norm_num)

/-- Witness for C9: a channel pre-filled with junk reaches average 9 after
five ticks of constant raw input 9. -/
theorem const_input_average_witness :
    Inv (initChannel 1000 3 555 17 40) ∧ (5 : Nat) ≤ 5 ∧
      avgOf (runConst (initChannel 1000 3 555 17 40) 9 (fun k => 20 * k) 7 5)
        = 9 :=
  ⟨by decide, by decide,
    const_input_average (initChannel 1000 3 555 17 40) 9 (fun k => 20 * k) 7 5
      (by decide) (by decide)⟩

end Midi2Grandma
